import Mathlib

/-!
Shallow embedding of `src/model/gegan.py` (class `GEGAN`) from the zi2zi
repository: the loss assembly of `build_model`, the complementary style id
computation, namedtuple handle field access, the `train` loop as an event
trace, trainable-variable partitioning, and the embedding interpolation of
`interpolate`.

Scalar tensor values (means of cross-entropy terms, penalties, learning
rates) are modelled as rationals; tensors of style ids as lists of
integers; the stateful training loop as the list of events it performs.
-/

namespace GEGAN

/-! ### Loss assembly (`build_model`, gegan.py lines 184-231) -/

/-- Line 204: `category_loss = self.Lcategory_penalty * (real_category_loss +
fake_s_category_loss + fake_c_category_loss)`. -/
def category_loss (Lcategory_penalty real_category_loss fake_s_category_loss
    fake_c_category_loss : ℚ) : ℚ :=
  Lcategory_penalty * (real_category_loss + fake_s_category_loss + fake_c_category_loss)

/-- Line 227: `cheat_loss = cheat_loss_s + cheat_loss_c`. -/
def cheat_loss (cheat_loss_s cheat_loss_c : ℚ) : ℚ :=
  cheat_loss_s + cheat_loss_c

/-- Line 191: `const_loss = (const_loss_s + const_loss_c) * self.Lconst_penalty`. -/
def const_loss (Lconst_penalty const_loss_s const_loss_c : ℚ) : ℚ :=
  (const_loss_s + const_loss_c) * Lconst_penalty

/-- Line 215: `l1_loss = self.L1_penalty * tf.reduce_mean(tf.abs(fake_s - real_data))`,
with the reduced mean taken as an opaque scalar. -/
def l1_loss (L1_penalty mean_abs_diff : ℚ) : ℚ :=
  L1_penalty * mean_abs_diff

/-- Line 220: `vgg_loss = self.vgg.vgg_loss(...) * self.Lvgg_penalty`, with the
perceptual network output taken as an opaque scalar. -/
def vgg_loss (vgg_raw Lvgg_penalty : ℚ) : ℚ :=
  vgg_raw * Lvgg_penalty

/-- Line 229: `d_loss = d_loss_real + d_loss_fake_s + d_loss_fake_c + category_loss / 2.0`. -/
def d_loss (d_loss_real d_loss_fake_s d_loss_fake_c category_loss_val : ℚ) : ℚ :=
  d_loss_real + d_loss_fake_s + d_loss_fake_c + category_loss_val / 2

/-- Lines 230-231: `g_loss = cheat_loss + l1_loss + vgg_loss + const_loss +
self.Lcategory_penalty * (fake_s_category_loss + fake_c_category_loss)`. -/
def g_loss (cheat_loss_val l1_loss_val vgg_loss_val const_loss_val
    Lcategory_penalty fake_s_category_loss fake_c_category_loss : ℚ) : ℚ :=
  cheat_loss_val + l1_loss_val + vgg_loss_val + const_loss_val +
    Lcategory_penalty * (fake_s_category_loss + fake_c_category_loss)

/-- Spec-side formula (spec section 4.3): the discriminator total is the
real/fake adversarial loss plus half the category loss. -/
def d_loss_spec (adversarial_loss category_loss_val : ℚ) : ℚ :=
  adversarial_loss + category_loss_val / 2

/-- Spec-side formula (spec section 4.3): the generator total is cheat loss +
L1 loss + perceptual loss + reconstruction loss + category penalty times the
sum of the style-fake and complement-fake category losses. -/
def g_loss_spec (cheat l1 perceptual reconstruction Lcategory_penalty
    fake_s_category fake_c_category : ℚ) : ℚ :=
  cheat + l1 + perceptual + reconstruction +
    Lcategory_penalty * (fake_s_category + fake_c_category)

/-! ### Complementary style ids (`build_model`, gegan.py lines 169-170) -/

/-- The `tf.ones_like(embedding_ids)` tensor of line 170. -/
def ones_like (embedding_ids : List ℤ) : List ℤ :=
  List.replicate embedding_ids.length 1

/-- Line 170: `embedding_ids_c = tf.ones_like(embedding_ids) - embedding_ids`,
an elementwise subtraction. -/
def embedding_ids_c (embedding_ids : List ℤ) : List ℤ :=
  List.zipWith (fun a b => a - b) (ones_like embedding_ids) embedding_ids

lemma embedding_ids_c_eq_map (ids : List ℤ) :
    embedding_ids_c ids = ids.map (fun i => 1 - i) := by
  unfold embedding_ids_c ones_like
  induction ids with
  | nil => rfl
  | cons i is ih =>
      simp only [List.length_cons, List.replicate_succ, List.zipWith_cons_cons,
        List.map_cons]
      rw [ih]

/-! ### Claim theorems for the loss assembly and complement ids -/

/-- C1: for every set of component loss scalars computed in one loss assembly,
the discriminator total equals the real/fake adversarial loss (the sum of the
real, style-fake and complement-fake binary cross-entropy terms) plus half the
category loss, and the generator total equals cheat loss + L1 loss +
perceptual loss + reconstruction loss + category penalty times (style-fake
category loss + complement-fake category loss); in particular with
d_loss_real = 0.5, d_loss_fake_s = 0.3, d_loss_fake_c = 0.2 and
category_loss = 0.4 the discriminator total is 1.2. -/
theorem loss_totals_decompose :
    (∀ dlr dlfs dlfc Lcat rc fsc fcc : ℚ,
      d_loss dlr dlfs dlfc (category_loss Lcat rc fsc fcc) =
        d_loss_spec (dlr + dlfs + dlfc) (category_loss Lcat rc fsc fcc)) ∧
    (∀ chs chc L1p mabs vraw Lvp Lcp cls clc Lcat fsc fcc : ℚ,
      g_loss (cheat_loss chs chc) (l1_loss L1p mabs) (vgg_loss vraw Lvp)
          (const_loss Lcp cls clc) Lcat fsc fcc =
        g_loss_spec (cheat_loss chs chc) (l1_loss L1p mabs) (vgg_loss vraw Lvp)
          (const_loss Lcp cls clc) Lcat fsc fcc) ∧
    d_loss (1/2) (3/10) (1/5) (2/5) = 6/5 := by
  refine ⟨fun _ _ _ _ _ _ _ => by unfold d_loss d_loss_spec; ring,
          fun _ _ _ _ _ _ _ _ _ _ _ _ => by unfold g_loss g_loss_spec; ring, ?_⟩
  unfold d_loss
  norm_num

/-- C2: for every batch of style ids of any length, the complementary id batch
computed at gegan.py line 170 equals `1 - id` elementwise, and adding the
complement batch to the original batch elementwise yields the all-ones batch,
so `complement(id) + id = 1` for every element. -/
theorem embedding_ids_c_complement (ids : List ℤ) :
    embedding_ids_c ids = ids.map (fun i => 1 - i) ∧
    List.zipWith (fun a b => a + b) (embedding_ids_c ids) ids =
      List.replicate ids.length 1 := by
  refine ⟨embedding_ids_c_eq_map ids, ?_⟩
  rw [embedding_ids_c_eq_map ids]
  induction ids with
  | nil => rfl
  | cons i is ih =>
      simp only [List.map_cons, List.zipWith_cons_cons, List.length_cons,
        List.replicate_succ, ih]
      rw [show (1:ℤ) - i + i = 1 by ring]

/-! ### Handle namedtuples and attribute access (gegan.py lines 19-34, 347-418) -/

/-- Fields of the `EvalHandle` namedtuple (lines 27-32). -/
def EvalHandle_fields : List String :=
  ["encoder", "fake_s", "fake_c", "source", "embedding"]

/-- Fields of the `LossHandle` namedtuple (lines 19-26). -/
def LossHandle_fields : List String :=
  ["d_loss", "g_loss", "const_loss", "l1_loss", "category_loss", "cheat_loss", "vgg_loss"]

/-- Fields of the `InputHandle` namedtuple (line 33). -/
def InputHandle_fields : List String :=
  ["real_data", "embedding_ids"]

/-- Attribute access on a namedtuple: returns the field name when it exists
and raises `AttributeError` otherwise, as Python does. -/
def getattrOf (fields : List String) (name : String) : Except String String :=
  if name ∈ fields then Except.ok name else Except.error ("AttributeError: " ++ name)

/-- Global names visible in the module `model/gegan.py`: its imports
(lines 5-15), the four namedtuples and the class itself. No other global is
defined in the file. -/
def moduleGlobals : List String :=
  ["tf", "np", "misc", "os", "time", "trange", "namedtuple",
   "conv2d", "deconv2d", "lrelu", "fc", "batch_norm", "init_embedding",
   "conditional_instance_norm", "get_train_dataloader", "normalize_image",
   "denormalize_image", "save_image", "VGG_Model",
   "LossHandle", "EvalHandle", "InputHandle", "SummaryHandle", "GEGAN"]

/-- Resolution of a global name in the module: raises `NameError` when the
name is not defined, as Python does. -/
def resolveGlobal (name : String) : Except String String :=
  if name ∈ moduleGlobals then Except.ok name
  else Except.error ("NameError: " ++ name ++ " is not defined")

/-- `generate_fake_samples` (lines 347-361): the attribute accesses it
performs, in Python evaluation order, before any session computation can
return. The image and id arguments are opaque and never reached. -/
def generate_fake_samples (_input_images _embedding_ids : Unit) : Except String (List String) := do
  let a ← getattrOf EvalHandle_fields "generator"
  let b ← getattrOf EvalHandle_fields "target"
  let c ← getattrOf LossHandle_fields "d_loss"
  let d ← getattrOf LossHandle_fields "g_loss"
  let e ← getattrOf LossHandle_fields "l1_loss"
  let f ← getattrOf InputHandle_fields "real_data"
  let g ← getattrOf InputHandle_fields "embedding_ids"
  let h ← getattrOf InputHandle_fields "no_target_data"
  let i ← getattrOf InputHandle_fields "no_target_ids"
  pure [a, b, c, d, e, f, g, h, i]

/-- `validate_model` (lines 363-379): calls `generate_fake_samples` and then
uses the undefined module globals `merge` and `scale_back`. -/
def validate_model : Except String Unit := do
  let _ ← generate_fake_samples () ()
  let _ ← resolveGlobal "merge"
  let _ ← resolveGlobal "scale_back"
  pure ()

/-- `infer` (lines 388-418): its first statement evaluates the name
`InjectDataProvider` (line 389), which the module never defines or imports;
any batch that is reached afterwards goes through `generate_fake_samples`. -/
def infer : Except String Unit := do
  let _ ← resolveGlobal "InjectDataProvider"
  let _ ← generate_fake_samples () ()
  pure ()

/-- C4: every call to `generate_fake_samples` raises an attribute error
before returning any result, because the very first field it reads,
`eval_handle.generator`, is not a field of the `EvalHandle` namedtuple (nor
is `target`; `no_target_data` and `no_target_ids` are likewise not fields of
`InputHandle`); consequently `validate_model` also always raises, and `infer`
never completes successfully (it raises `NameError` on the undefined
`InjectDataProvider` before reaching its first batch). -/
theorem generate_fake_samples_always_raises (imgs ids : Unit) :
    generate_fake_samples imgs ids = Except.error "AttributeError: generator" ∧
    validate_model = Except.error "AttributeError: generator" ∧
    infer = Except.error "NameError: InjectDataProvider is not defined" ∧
    "generator" ∉ EvalHandle_fields ∧ "target" ∉ EvalHandle_fields ∧
    "no_target_data" ∉ InputHandle_fields ∧ "no_target_ids" ∉ InputHandle_fields := by
  refine ⟨rfl, rfl, rfl, ?_, ?_, ?_, ?_⟩ <;> decide

/-! ### Interpolation (`interpolate`, gegan.py lines 420-491) -/

/-- The `alphas` array of line 426: `np.linspace(0.0, 1.0, steps + 1)`,
whose k-th entry is `k / steps`. -/
def alphas (steps : Nat) : List ℚ :=
  (List.range (steps + 1)).map (fun (k : Nat) => (k : ℚ) / (steps : ℚ))

/-- `_interpolate_tensor` (lines 428-441): select rows `between[0]` and
`between[1]` of the tensor and form `x * (1 - alpha) + alpha * y` for each
alpha, elementwise on the rows. -/
def interpolate_tensor (tensor : List (List ℚ)) (between0 between1 steps : Nat) :
    List (List ℚ) :=
  let x := tensor.getD between0 []
  let y := tensor.getD between1 []
  (alphas steps).map (fun a => List.zipWith (fun xi yi => xi * (1 - a) + a * yi) x y)

lemma zipWith_alpha_zero :
    ∀ (x y : List ℚ), x.length = y.length →
      List.zipWith (fun xi yi => xi * (1 - (0:ℚ)) + 0 * yi) x y = x := by
  intro x
  induction x with
  | nil => intro y _; rfl
  | cons a as ih =>
      intro y hlen
      cases y with
      | nil => simp at hlen
      | cons b bs =>
          simp only [List.zipWith_cons_cons]
          rw [ih bs (by simpa using hlen)]
          norm_num

lemma zipWith_alpha_one :
    ∀ (x y : List ℚ), x.length = y.length →
      List.zipWith (fun xi yi => xi * (1 - (1:ℚ)) + 1 * yi) x y = y := by
  intro x
  induction x with
  | nil =>
      intro y hlen
      cases y with
      | nil => rfl
      | cons b bs => simp at hlen
  | cons a as ih =>
      intro y hlen
      cases y with
      | nil => simp at hlen
      | cons b bs =>
          simp only [List.zipWith_cons_cons]
          rw [ih bs (by simpa using hlen)]
          norm_num

lemma alphas_length (steps : Nat) : (alphas steps).length = steps + 1 := by
  unfold alphas
  rw [List.length_map, List.length_range]

lemma interpolate_tensor_length (tensor : List (List ℚ))
    (between0 between1 steps : Nat) :
    (interpolate_tensor tensor between0 between1 steps).length = steps + 1 := by
  unfold interpolate_tensor
  rw [List.length_map, alphas_length]

lemma interpolate_tensor_getD (tensor : List (List ℚ))
    (between0 between1 steps k : Nat) (hk : k < steps + 1) :
    (interpolate_tensor tensor between0 between1 steps).getD k [] =
      List.zipWith
        (fun xi yi => xi * (1 - ((k:ℚ) / (steps:ℚ))) + ((k:ℚ) / (steps:ℚ)) * yi)
        (tensor.getD between0 []) (tensor.getD between1 []) := by
  rw [List.getD_eq_getElem _ _ (by rw [interpolate_tensor_length]; omega)]
  unfold interpolate_tensor alphas
  simp only [List.getElem_map, List.getElem_range]

/-- C8: for every tensor, pair of row indices `between0`, `between1` and
every `steps ≥ 1`, the interpolated sequence computed by
`_interpolate_tensor` over `np.linspace(0, 1, steps + 1)` has the selected
row `x = tensor[between0]` as its entry at alpha = 0 and the selected row
`y = tensor[between1]` as its entry at alpha = 1, exactly. -/
theorem interpolate_tensor_endpoints (tensor : List (List ℚ))
    (between0 between1 steps : Nat) (hsteps : 1 ≤ steps)
    (hlen : (tensor.getD between0 []).length = (tensor.getD between1 []).length) :
    (interpolate_tensor tensor between0 between1 steps).length = steps + 1 ∧
    (interpolate_tensor tensor between0 between1 steps).getD 0 [] =
      tensor.getD between0 [] ∧
    (interpolate_tensor tensor between0 between1 steps).getD steps [] =
      tensor.getD between1 [] := by
  refine ⟨interpolate_tensor_length tensor between0 between1 steps, ?_, ?_⟩
  · rw [interpolate_tensor_getD tensor between0 between1 steps 0 (by omega)]
    simp only [Nat.cast_zero, zero_div]
    exact zipWith_alpha_zero _ _ hlen
  · rw [interpolate_tensor_getD tensor between0 between1 steps steps (by omega)]
    have hs : ((steps : ℚ)) ≠ 0 := Nat.cast_ne_zero.mpr (by omega)
    simp only [div_self hs]
    exact zipWith_alpha_one _ _ hlen

/-- Witness for C8 at a concrete input: the 2-row embedding tensor
`[[1, 2], [3, 4]]`, rows 0 and 1, 2 interpolation steps. -/
theorem interpolate_tensor_endpoints_witness :
    (1 ≤ 2 ∧
      (([[(1:ℚ), 2], [3, 4]].getD 0 []).length =
        ([[(1:ℚ), 2], [3, 4]].getD 1 []).length)) ∧
    ((interpolate_tensor [[(1:ℚ), 2], [3, 4]] 0 1 2).length = 2 + 1 ∧
      (interpolate_tensor [[(1:ℚ), 2], [3, 4]] 0 1 2).getD 0 [] =
        [[(1:ℚ), 2], [3, 4]].getD 0 [] ∧
      (interpolate_tensor [[(1:ℚ), 2], [3, 4]] 0 1 2).getD 2 [] =
        [[(1:ℚ), 2], [3, 4]].getD 1 []) :=
  ⟨⟨by norm_num, by decide⟩,
    interpolate_tensor_endpoints [[(1:ℚ), 2], [3, 4]] 0 1 2 (by norm_num) (by decide)⟩

/-- Events performed by `interpolate` (lines 420-491), in source order. -/
inductive InterpEvent
  | globalInit
  | restoreModel
  | overwriteEmbeddings
  | genFrame (stepIdx : Nat)
  | restoreEmbeddings
deriving DecidableEq

/-- The control flow of `interpolate` (lines 420-491): initialize and restore
the model, snapshot and overwrite the embedding variables with interpolated
values (lines 456-463), then evaluate the name `InjectDataProvider`
(line 465); if that resolved, the frame loop would run
`eval_handle.generator` on each source batch (line 476), and the restore
loop (lines 487-491) runs only after the frame loop finishes. There is no
try/finally around any of it. -/
def interpolate_run (numBatches steps : Nat) : List InterpEvent × Option String :=
  let pre := [InterpEvent.globalInit, InterpEvent.restoreModel,
              InterpEvent.overwriteEmbeddings]
  match resolveGlobal "InjectDataProvider" with
  | Except.error e => (pre, some e)
  | Except.ok _ =>
      if numBatches = 0 then
        (pre ++ (List.range (steps + 1)).map InterpEvent.genFrame ++
           [InterpEvent.restoreEmbeddings], none)
      else
        match getattrOf EvalHandle_fields "generator" with
        | Except.error e => (pre, some e)
        | Except.ok _ =>
            (pre ++ (List.range (steps + 1)).map InterpEvent.genFrame ++
               [InterpEvent.restoreEmbeddings], none)

/-- C6: contrary to the claim, the restore step of `interpolate` is not
guaranteed: the procedure has no try/finally, and in this code every
execution raises (the undefined name `InjectDataProvider` is evaluated at
line 465, after the embedding variables have been overwritten and before the
restore loop), so the restore step never executes and the model is always
left in the interpolated parameter state when `interpolate` terminates. -/
theorem interpolate_never_restores (numBatches steps : Nat) :
    (interpolate_run numBatches steps).2 =
      some "NameError: InjectDataProvider is not defined" ∧
    InterpEvent.restoreEmbeddings ∉ (interpolate_run numBatches steps).1 ∧
    InterpEvent.overwriteEmbeddings ∈ (interpolate_run numBatches steps).1 := by
  refine ⟨rfl, ?_, ?_⟩
  · show InterpEvent.restoreEmbeddings ∉ [InterpEvent.globalInit,
      InterpEvent.restoreModel, InterpEvent.overwriteEmbeddings]
    decide
  · show InterpEvent.overwriteEmbeddings ∈ [InterpEvent.globalInit,
      InterpEvent.restoreModel, InterpEvent.overwriteEmbeddings]
    decide

/-! ### Training loop (`train`, gegan.py lines 493-575) -/

/-- Events performed by `train`, in source order. `dStep` and `gStep` record
the iteration index and the learning-rate value fed to the optimizer;
`gStep` also records whether the run harvests the individual loss scalars
(the second generator run of lines 544-557 does, the first of lines 534-539
does not). `logLosses` stands for the console log of the discriminator
total, generator total and perceptual loss (line 560). -/
inductive TrainEvent
  | retrieveVars
  | retrieveHandles
  | buildOptimizers
  | globalInit
  | startQueueRunners
  | restoreCkpt
  | fetchBatch (t : Nat)
  | dStep (t : Nat) (lr : ℚ)
  | gStep (t : Nat) (lr : ℚ) (harvest : Bool)
  | logLosses (t : Nat)
  | saveSampleReal (t : Nat)
  | saveSampleFakeS (t : Nat)
  | saveSampleFakeC (t : Nat)
  | saveCheckpoint (t : Nat)
deriving DecidableEq

/-- One iteration of the training loop (lines 520-575): fetch and normalize a
batch, one discriminator optimizer run, two generator optimizer runs (the
second harvesting the loss scalars), then conditional logging/sampling when
`t % log_step == 0` and conditional checkpointing when
`t % checkpoint_steps == 0`. -/
def trainBody (t : Nat) (current_lr : ℚ) (log_step checkpoint_steps : Nat) :
    List TrainEvent :=
  [TrainEvent.fetchBatch t, TrainEvent.dStep t current_lr,
   TrainEvent.gStep t current_lr false, TrainEvent.gStep t current_lr true] ++
  (if t % log_step = 0 then
    [TrainEvent.logLosses t, TrainEvent.saveSampleReal t,
     TrainEvent.saveSampleFakeS t, TrainEvent.saveSampleFakeC t]
   else []) ++
  (if t % checkpoint_steps = 0 then [TrainEvent.saveCheckpoint t] else [])

/-- `train` (lines 493-575) as the pair of the events it performs and the
error it raises, if any. The argument list mirrors the Python signature
(with the registered session prepended as explicit model state); the hard
constants `max_step = 100000`, `current_lr = 0.0001` and `log_step = 50` are
the ones assigned at lines 516-518. The `lr`, `epoch`, `schedule`,
`flip_labels`, `fine_tune` and `sample_steps` parameters are never read in
the body, exactly as in the source. -/
def train (sess : Option Unit) (lr : ℚ) (epoch schedule : Nat)
    (resume flip_labels freeze_encoder : Bool) (fine_tune : Option Unit)
    (sample_steps checkpoint_steps : Nat) : List TrainEvent × Option String :=
  let prologue := [TrainEvent.retrieveVars, TrainEvent.retrieveHandles]
  match sess with
  | none => (prologue, some "no session registered")
  | some _ =>
      let max_step := 100000
      let current_lr : ℚ := 1 / 10000
      let log_step := 50
      (prologue ++
        [TrainEvent.buildOptimizers, TrainEvent.globalInit,
         TrainEvent.startQueueRunners] ++
        (if resume then [TrainEvent.restoreCkpt] else []) ++
        (List.range max_step).flatMap
          (fun t => trainBody t current_lr log_step checkpoint_steps), none)

def TrainEvent.isDStep : TrainEvent → Bool
  | TrainEvent.dStep _ _ => true
  | _ => false

def TrainEvent.isGStep : TrainEvent → Bool
  | TrainEvent.gStep _ _ _ => true
  | _ => false

def TrainEvent.isFetchBatch : TrainEvent → Bool
  | TrainEvent.fetchBatch _ => true
  | _ => false

/-- Operations the session-check of line 498-499 must precede per the spec:
optimizer construction, checkpoint restore, and optimization steps. -/
def TrainEvent.isOptBuildRestoreOrStep : TrainEvent → Bool
  | TrainEvent.buildOptimizers => true
  | TrainEvent.restoreCkpt => true
  | TrainEvent.dStep _ _ => true
  | TrainEvent.gStep _ _ _ => true
  | _ => false

lemma logLosses_mem_trainBody {u t : Nat} {clr : ℚ} {ls cs : Nat} :
    TrainEvent.logLosses u ∈ trainBody t clr ls cs ↔ u = t ∧ t % ls = 0 := by
  unfold trainBody
  split_ifs with h1 h2 <;> simp_all

lemma saveSampleReal_mem_trainBody {u t : Nat} {clr : ℚ} {ls cs : Nat} :
    TrainEvent.saveSampleReal u ∈ trainBody t clr ls cs ↔ u = t ∧ t % ls = 0 := by
  unfold trainBody
  split_ifs with h1 h2 <;> simp_all

lemma saveSampleFakeS_mem_trainBody {u t : Nat} {clr : ℚ} {ls cs : Nat} :
    TrainEvent.saveSampleFakeS u ∈ trainBody t clr ls cs ↔ u = t ∧ t % ls = 0 := by
  unfold trainBody
  split_ifs with h1 h2 <;> simp_all

lemma saveSampleFakeC_mem_trainBody {u t : Nat} {clr : ℚ} {ls cs : Nat} :
    TrainEvent.saveSampleFakeC u ∈ trainBody t clr ls cs ↔ u = t ∧ t % ls = 0 := by
  unfold trainBody
  split_ifs with h1 h2 <;> simp_all

lemma dStep_mem_trainBody {u t : Nat} {l clr : ℚ} {ls cs : Nat} :
    TrainEvent.dStep u l ∈ trainBody t clr ls cs ↔ u = t ∧ l = clr := by
  unfold trainBody
  split_ifs with h1 h2 <;> simp_all

lemma gStep_mem_trainBody {u t : Nat} {l clr : ℚ} {hv : Bool} {ls cs : Nat} :
    TrainEvent.gStep u l hv ∈ trainBody t clr ls cs ↔ u = t ∧ l = clr := by
  unfold trainBody
  split_ifs with h1 h2 <;> cases hv <;> simp_all

lemma fetchBatch_mem_trainBody {u t : Nat} {clr : ℚ} {ls cs : Nat} :
    TrainEvent.fetchBatch u ∈ trainBody t clr ls cs ↔ u = t := by
  unfold trainBody
  split_ifs with h1 h2 <;> simp_all

lemma countP_isFetchBatch_trainBody (t : Nat) (clr : ℚ) (ls cs : Nat) :
    (trainBody t clr ls cs).countP TrainEvent.isFetchBatch = 1 := by
  unfold trainBody
  split_ifs <;> rfl

lemma countP_isFetchBatch_flatMap (n cs : Nat) (clr : ℚ) (ls : Nat) :
    ((List.range n).flatMap (fun t => trainBody t clr ls cs)).countP
      TrainEvent.isFetchBatch = n := by
  induction n with
  | zero => rfl
  | succ k ih =>
      rw [List.range_succ, List.flatMap_append, List.countP_append, ih]
      simp [countP_isFetchBatch_trainBody]

lemma logLosses_mem_train (lr : ℚ) (e s : Nat) (r fl fe : Bool)
    (ft : Option Unit) (ss cs u : Nat) :
    TrainEvent.logLosses u ∈ (train (some ()) lr e s r fl fe ft ss cs).1 ↔
      u < 100000 ∧ u % 50 = 0 := by
  unfold train
  cases r <;>
    simp [List.mem_flatMap, List.mem_range, logLosses_mem_trainBody] <;>
    aesop

lemma saveSampleReal_mem_train (lr : ℚ) (e s : Nat) (r fl fe : Bool)
    (ft : Option Unit) (ss cs u : Nat) :
    TrainEvent.saveSampleReal u ∈ (train (some ()) lr e s r fl fe ft ss cs).1 ↔
      u < 100000 ∧ u % 50 = 0 := by
  unfold train
  cases r <;>
    simp [List.mem_flatMap, List.mem_range, saveSampleReal_mem_trainBody] <;>
    aesop

lemma saveSampleFakeS_mem_train (lr : ℚ) (e s : Nat) (r fl fe : Bool)
    (ft : Option Unit) (ss cs u : Nat) :
    TrainEvent.saveSampleFakeS u ∈ (train (some ()) lr e s r fl fe ft ss cs).1 ↔
      u < 100000 ∧ u % 50 = 0 := by
  unfold train
  cases r <;>
    simp [List.mem_flatMap, List.mem_range, saveSampleFakeS_mem_trainBody] <;>
    aesop

lemma saveSampleFakeC_mem_train (lr : ℚ) (e s : Nat) (r fl fe : Bool)
    (ft : Option Unit) (ss cs u : Nat) :
    TrainEvent.saveSampleFakeC u ∈ (train (some ()) lr e s r fl fe ft ss cs).1 ↔
      u < 100000 ∧ u % 50 = 0 := by
  unfold train
  cases r <;>
    simp [List.mem_flatMap, List.mem_range, saveSampleFakeC_mem_trainBody] <;>
    aesop

lemma dStep_mem_train (lr : ℚ) (e s : Nat) (r fl fe : Bool)
    (ft : Option Unit) (ss cs u : Nat) (lx : ℚ) :
    TrainEvent.dStep u lx ∈ (train (some ()) lr e s r fl fe ft ss cs).1 ↔
      u < 100000 ∧ lx = 1/10000 := by
  unfold train
  cases r <;>
    simp [List.mem_flatMap, List.mem_range, dStep_mem_trainBody] <;>
    aesop

lemma gStep_mem_train (lr : ℚ) (e s : Nat) (r fl fe : Bool)
    (ft : Option Unit) (ss cs u : Nat) (lx : ℚ) (hv : Bool) :
    TrainEvent.gStep u lx hv ∈ (train (some ()) lr e s r fl fe ft ss cs).1 ↔
      u < 100000 ∧ lx = 1/10000 := by
  unfold train
  cases r <;>
    simp [List.mem_flatMap, List.mem_range, gStep_mem_trainBody] <;>
    aesop

/-- C3: in every iteration of the training loop, the first four events are
the batch fetch, exactly one discriminator optimizer run, then the two
generator optimizer runs on the same iteration index (hence the same batch);
the discriminator run precedes both generator runs, the iteration contains
no other optimizer run, and only the second generator run harvests the
individual loss scalars; and the loop of `train` is exactly this body
iterated for t = 0, ..., 99999. -/
theorem train_iteration_d_then_two_g :
    (∀ (t : Nat) (clr : ℚ) (ls cs : Nat),
      (trainBody t clr ls cs).take 4 =
        [TrainEvent.fetchBatch t, TrainEvent.dStep t clr,
         TrainEvent.gStep t clr false, TrainEvent.gStep t clr true] ∧
      (trainBody t clr ls cs).countP TrainEvent.isDStep = 1 ∧
      (trainBody t clr ls cs).countP TrainEvent.isGStep = 2 ∧
      ((trainBody t clr ls cs).drop 4).countP
        (fun ev => ev.isDStep || ev.isGStep) = 0) ∧
    (∀ (lr : ℚ) (e s : Nat) (fl fe : Bool) (ft : Option Unit) (ss cs : Nat),
      (train (some ()) lr e s false fl fe ft ss cs).1 =
        [TrainEvent.retrieveVars, TrainEvent.retrieveHandles,
         TrainEvent.buildOptimizers, TrainEvent.globalInit,
         TrainEvent.startQueueRunners] ++
        (List.range 100000).flatMap (fun t => trainBody t (1/10000) 50 cs)) := by
  constructor
  · intro t clr ls cs
    refine ⟨rfl, ?_, ?_, ?_⟩ <;> (unfold trainBody; split_ifs <;> rfl)
  · intro lr e s fl fe ft ss cs
    rfl

/-- C9: if `train` is invoked with no session registered on the model, it
raises "no session registered" right after retrieving the variable lists and
handles, and the events it has performed by then include no optimizer
construction, no checkpoint restore and no optimization step. -/
theorem train_without_session_aborts (lr : ℚ) (e s : Nat) (r fl fe : Bool)
    (ft : Option Unit) (ss cs : Nat) :
    train none lr e s r fl fe ft ss cs =
      ([TrainEvent.retrieveVars, TrainEvent.retrieveHandles],
        some "no session registered") ∧
    (train none lr e s r fl fe ft ss cs).1.countP
      TrainEvent.isOptBuildRestoreOrStep = 0 :=
  ⟨rfl, rfl⟩

/-- C7: two invocations of `train` that differ only in the `lr`, `epoch`,
`schedule`, `flip_labels` or `sample_steps` arguments perform identical
event sequences and produce the same outcome, because those arguments are
never read: the learning rate fed to every optimizer run is the constant
0.0001, the iteration count is the constant 100000, and the
logging/sampling interval is the constant 50. -/
theorem train_ignores_tuning_args :
    (∀ (sess : Option Unit) (lr1 lr2 : ℚ) (e1 e2 s1 s2 : Nat) (r : Bool)
        (fl1 fl2 fe : Bool) (ft : Option Unit) (ss1 ss2 cs : Nat),
      train sess lr1 e1 s1 r fl1 fe ft ss1 cs =
        train sess lr2 e2 s2 r fl2 fe ft ss2 cs) ∧
    (∀ (lr : ℚ) (e s : Nat) (r fl fe : Bool) (ft : Option Unit) (ss cs : Nat),
      (∀ (u : Nat) (lx : ℚ),
        TrainEvent.dStep u lx ∈ (train (some ()) lr e s r fl fe ft ss cs).1 ↔
          u < 100000 ∧ lx = 1/10000) ∧
      (∀ (u : Nat) (lx : ℚ) (hv : Bool),
        TrainEvent.gStep u lx hv ∈ (train (some ()) lr e s r fl fe ft ss cs).1 ↔
          u < 100000 ∧ lx = 1/10000) ∧
      (train (some ()) lr e s r fl fe ft ss cs).1.countP
        TrainEvent.isFetchBatch = 100000 ∧
      (∀ u : Nat,
        TrainEvent.logLosses u ∈ (train (some ()) lr e s r fl fe ft ss cs).1 ↔
          u < 100000 ∧ u % 50 = 0)) := by
  constructor
  · intro sess lr1 lr2 e1 e2 s1 s2 r fl1 fl2 fe ft ss1 ss2 cs
    rfl
  · intro lr e s r fl fe ft ss cs
    refine ⟨fun u lx => dStep_mem_train lr e s r fl fe ft ss cs u lx,
            fun u lx hv => gStep_mem_train lr e s r fl fe ft ss cs u lx hv,
            ?_,
            fun u => logLosses_mem_train lr e s r fl fe ft ss cs u⟩
    unfold train
    cases r <;>
      simp [List.countP_append, countP_isFetchBatch_flatMap,
        TrainEvent.isFetchBatch, List.countP_cons]

/-- C5 counterexample: with the sampling interval argument
`sample_steps = 30`, the claim predicts logging at iteration 30
(30 mod 30 = 0), but the training loop does not log there: the interval the
code uses is the hardcoded `log_step = 50`, not `sample_steps`. -/
theorem sampling_interval_claim_false :
    TrainEvent.logLosses 30 ∉
      (train (some ()) (2/10000) 100 10 false false false none 30 1000).1 ∧
    30 % 30 = 0 := by
  constructor
  · intro hmem
    have h := (logLosses_mem_train (2/10000) 100 10 false false false none
      30 1000 30).mp hmem
    omega
  · rfl

/-- C5 amended: the training loop logs the discriminator total, generator
total and perceptual loss and persists the real, style-fake and
complement-fake sample images exactly at the iterations t with
t mod 50 == 0 — the hardcoded `log_step = 50` — and at no other iteration,
regardless of the `sample_steps` argument. -/
theorem sampling_interval_is_hardcoded_50 (lr : ℚ) (e s : Nat)
    (r fl fe : Bool) (ft : Option Unit) (ss cs t : Nat) :
    (TrainEvent.logLosses t ∈ (train (some ()) lr e s r fl fe ft ss cs).1 ↔
      t < 100000 ∧ t % 50 = 0) ∧
    (TrainEvent.saveSampleReal t ∈ (train (some ()) lr e s r fl fe ft ss cs).1 ↔
      t < 100000 ∧ t % 50 = 0) ∧
    (TrainEvent.saveSampleFakeS t ∈ (train (some ()) lr e s r fl fe ft ss cs).1 ↔
      t < 100000 ∧ t % 50 = 0) ∧
    (TrainEvent.saveSampleFakeC t ∈ (train (some ()) lr e s r fl fe ft ss cs).1 ↔
      t < 100000 ∧ t % 50 = 0) :=
  ⟨logLosses_mem_train lr e s r fl fe ft ss cs t,
   saveSampleReal_mem_train lr e s r fl fe ft ss cs t,
   saveSampleFakeS_mem_train lr e s r fl fe ft ss cs t,
   saveSampleFakeC_mem_train lr e s r fl fe ft ss cs t⟩

/-! ### Trainable-variable partitioning (`retrieve_trainable_vars`, gegan.py
lines 297-308) and the optimizer frame (lines 502-503) -/

/-- Whether the character list `pat` is an initial segment of `s`. -/
def pfxOf : List Char → List Char → Bool
  | [], _ => true
  | _ :: _, [] => false
  | a :: as, b :: bs => a == b && pfxOf as bs

/-- Whether the character list `pat` occurs contiguously inside `s`: the
Python substring test `pat in s`. -/
def subOf (pat : List Char) : List Char → Bool
  | [] => pfxOf pat []
  | b :: bs => pfxOf pat (b :: bs) || subOf pat bs

/-- The Python membership test `pat in name` on variable names. -/
def nameContains (name pat : String) : Bool :=
  subOf pat.toList name.toList

/-- `retrieve_trainable_vars` (lines 297-308): split the trainable variables
into the discriminator set (names containing `d_`) and the generator set
(names containing `g_`); when `freeze_encoder` is set, drop from the
generator set every name containing `g_e`. Returns `(g_vars, d_vars)`. -/
def retrieve_trainable_vars (t_vars : List String) (freeze_encoder : Bool) :
    List String × List String :=
  let d_vars := t_vars.filter (fun v => nameContains v "d_")
  let g_vars0 := t_vars.filter (fun v => nameContains v "g_")
  let g_vars := if freeze_encoder then
      g_vars0.filter (fun v => ! nameContains v "g_e")
    else g_vars0
  (g_vars, d_vars)

/-- An optimizer run with an explicit `var_list` (lines 502-503): parameters
named in the list take their updated value, all others are untouched. -/
def optimizerStep (var_list : List String) (params upd : String → ℚ) :
    String → ℚ :=
  fun n => if n ∈ var_list then upd n else params n

lemma toList_ge : "g_e".toList = ['g', '_', 'e'] := rfl

lemma toList_g : "g_".toList = ['g', '_'] := rfl

lemma pfxOf_ge_pfxOf_g :
    ∀ w : List Char, pfxOf "g_e".toList w = true → pfxOf "g_".toList w = true := by
  rw [toList_ge, toList_g]
  intro w h
  match w with
  | [] => simp [pfxOf] at h
  | [a] => simp [pfxOf] at h
  | a :: b :: bs =>
      simp only [pfxOf, Bool.and_eq_true] at h ⊢
      exact ⟨h.1, h.2.1, trivial⟩

lemma subOf_ge_subOf_g :
    ∀ w : List Char, subOf "g_e".toList w = true → subOf "g_".toList w = true := by
  intro w
  induction w with
  | nil =>
      intro h
      rw [toList_ge] at h
      simp [subOf, pfxOf] at h
  | cons b bs ih =>
      intro h
      rw [show subOf "g_e".toList (b :: bs) =
            (pfxOf "g_e".toList (b :: bs) || subOf "g_e".toList bs) from rfl] at h
      rw [show subOf "g_".toList (b :: bs) =
            (pfxOf "g_".toList (b :: bs) || subOf "g_".toList bs) from rfl]
      rcases Bool.or_eq_true_iff.mp h with h1 | h2
      · exact Bool.or_eq_true_iff.mpr (Or.inl (pfxOf_ge_pfxOf_g _ h1))
      · exact Bool.or_eq_true_iff.mpr (Or.inr (ih h2))

lemma nameContains_ge_g (v : String) :
    nameContains v "g_e" = true → nameContains v "g_" = true :=
  fun h => subOf_ge_subOf_g v.toList h

/-- C10: when the freeze-encoder flag is set, the generator variable set
returned by `retrieve_trainable_vars` consists exactly of the trainable
variables whose names contain `g_` but not `g_e` — every encoder variable
(name containing `g_e`) is excluded and every other generator variable is
retained — so a generator optimizer run over that set leaves every encoder
parameter at its old value; when the flag is unset, the set consists of all
variables whose names contain `g_`, which includes the encoder variables. -/
theorem retrieve_trainable_vars_freeze_encoder (t_vars : List String) (v : String) :
    (v ∈ (retrieve_trainable_vars t_vars true).1 ↔
      v ∈ t_vars ∧ nameContains v "g_" = true ∧ nameContains v "g_e" = false) ∧
    (v ∈ (retrieve_trainable_vars t_vars false).1 ↔
      v ∈ t_vars ∧ nameContains v "g_" = true) ∧
    (nameContains v "g_e" = true →
      ∀ params upd : String → ℚ,
        optimizerStep (retrieve_trainable_vars t_vars true).1 params upd v =
          params v) ∧
    (nameContains v "g_e" = true → v ∈ t_vars →
      v ∈ (retrieve_trainable_vars t_vars false).1) := by
  have hfrozen : v ∈ (retrieve_trainable_vars t_vars true).1 ↔
      v ∈ t_vars ∧ nameContains v "g_" = true ∧ nameContains v "g_e" = false := by
    unfold retrieve_trainable_vars
    simp [List.mem_filter]
    tauto
  have hopen : v ∈ (retrieve_trainable_vars t_vars false).1 ↔
      v ∈ t_vars ∧ nameContains v "g_" = true := by
    unfold retrieve_trainable_vars
    simp [List.mem_filter]
  refine ⟨hfrozen, hopen, ?_, ?_⟩
  · intro hge params upd
    unfold optimizerStep
    rw [if_neg]
    intro hmem
    have h2 := (hfrozen.mp hmem).2.2
    rw [hge] at h2
    exact Bool.true_eq_false.mp h2
  · intro hge hmem
    exact hopen.mpr ⟨hmem, nameContains_ge_g v hge⟩

/-- Witness for C10 at a concrete variable set: with the encoder weight
`generator/g_e1_conv/kernel`, a decoder weight and a discriminator weight,
the frozen generator set leaves the encoder weight unchanged under an
optimizer run, and the unfrozen set contains it. -/
theorem retrieve_trainable_vars_freeze_encoder_witness :
    nameContains "generator/g_e1_conv/kernel" "g_e" = true ∧
    optimizerStep
      (retrieve_trainable_vars
        ["generator/g_e1_conv/kernel", "generator/g_d1_deconv/kernel",
         "discriminator/d_h0_conv/kernel"] true).1
      (fun _ => 0) (fun _ => 1) "generator/g_e1_conv/kernel" = 0 ∧
    "generator/g_e1_conv/kernel" ∈
      (retrieve_trainable_vars
        ["generator/g_e1_conv/kernel", "generator/g_d1_deconv/kernel",
         "discriminator/d_h0_conv/kernel"] false).1 :=
  ⟨by decide,
   (retrieve_trainable_vars_freeze_encoder
      ["generator/g_e1_conv/kernel", "generator/g_d1_deconv/kernel",
       "discriminator/d_h0_conv/kernel"]
      "generator/g_e1_conv/kernel").2.2.1 (by decide) (fun _ => 0) (fun _ => 1),
   (retrieve_trainable_vars_freeze_encoder
      ["generator/g_e1_conv/kernel", "generator/g_d1_deconv/kernel",
       "discriminator/d_h0_conv/kernel"]
      "generator/g_e1_conv/kernel").2.2.2 (by decide) (by decide)⟩

end GEGAN
